import Mathlib

/-!
Verification development for the DL_Homework_Garden repository.

Shallow embedding of the two core subsystems:
* the Rule-Based Classification Engine (`src/core/filter_manager.py`), and
* the Download Orchestration Engine (`src/core/download_manager.py`),
together with theorems settling the frozen claims C1..C10.

Python strings are modelled as Lean `String`; the handful of string
operations used by the source (`split` on a single-character separator,
`strip`, `lower`, `startswith`, `endswith`, substring containment) are
implemented structurally over `List Char` so that all definitions
evaluate inside the kernel.
-/

namespace DLG

/-! ### String helpers (models of the Python string operations used) -/

/-- Model of Python `sep.join`-free single-character `str.split`:
`splitOnChar c l` splits `l` at every occurrence of `c`, keeping empty
pieces, exactly like Python `s.split(c)` for a one-character separator. -/
def splitOnChar (c : Char) : List Char → List (List Char)
  | [] => [[]]
  | h :: t =>
    match splitOnChar c t with
    | [] => if h == c then [[], []] else [[h]]
    | s :: rest => if h == c then [] :: s :: rest else (h :: s) :: rest

/-- Python `s.split(c)` for a single-character separator, on `String`. -/
def pySplit (s : String) (c : Char) : List String :=
  (splitOnChar c s.toList).map String.mk

/-- Substring containment on char lists: Python `needle in hay`. -/
def listContainsSub (needle : List Char) : List Char → Bool
  | [] => needle.isEmpty
  | h :: t => needle.isPrefixOf (h :: t) || listContainsSub needle t

/-- Python `needle in hay` for strings (contiguous substring test). -/
def strContainsSub (needle hay : String) : Bool :=
  listContainsSub needle.toList hay.toList

/-- Python `s.startswith(p)`. -/
def strStartsWith (s p : String) : Bool :=
  p.toList.isPrefixOf s.toList

/-- Python `s.endswith(p)`. -/
def strEndsWith (s p : String) : Bool :=
  p.toList.reverse.isPrefixOf s.toList.reverse

/-- Python `s.lower()` (ASCII case folding, which is all the source uses). -/
def strLower (s : String) : String :=
  String.mk (s.toList.map Char.toLower)

/-- Python `s.strip()` (whitespace trim at both ends). -/
def strTrim (s : String) : String :=
  String.mk (((s.toList.dropWhile Char.isWhitespace).reverse.dropWhile
    Char.isWhitespace).reverse)

/-! ### Model of `urllib.parse.urlparse`

Faithful to CPython `Lib/urllib/parse.py` for the fields the source
reads (`scheme`, `netloc`, `path`, `query`, `fragment`): WHATWG
pre-cleaning, scheme recognition, `//netloc` splitting at the first of
`/?#`, fragment split at the first `#`, query split at the first `?`,
and the `;params` split of the last path segment done by `urlparse`. -/

structure UrlParseResult where
  scheme : String
  netloc : String
  path : String
  params : String
  query : String
  fragment : String
deriving Repr, DecidableEq

/-- Characters allowed in a scheme after the first (CPython `scheme_chars`). -/
def schemeChar (c : Char) : Bool :=
  c.isAlpha || c.isDigit || c == '+' || c == '-' || c == '.'

/-- WHATWG cleanup done by `urlsplit`: strip leading C0 controls/space,
then remove every tab, CR and LF. -/
def whatwgClean (l : List Char) : List Char :=
  (l.dropWhile (fun c => c.toNat ≤ 32)).filter
    (fun c => !(c == '\t' || c == '\r' || c == '\n'))

/-- Split off the scheme, as CPython does: a `:` at position `i > 0`
preceded only by an ASCII letter and scheme characters. -/
def splitScheme (l : List Char) : String × List Char :=
  match List.findIdx? (· == ':') l with
  | none => ("", l)
  | some i =>
    if 0 < i then
      let candidate := l.take i
      match candidate with
      | [] => ("", l)
      | c0 :: _ =>
        if c0.isAlpha && candidate.all schemeChar then
          (strLower (String.mk candidate), l.drop (i + 1))
        else ("", l)
    else ("", l)

/-- `_splitnetloc`: after `//`, the netloc extends to the first `/`, `?` or `#`. -/
def splitNetloc (l : List Char) : List Char × List Char :=
  (l.takeWhile (fun c => !(c == '/' || c == '?' || c == '#')),
   l.dropWhile (fun c => !(c == '/' || c == '?' || c == '#')))

/-- Split `l` at the first occurrence of `c` (Python `s.split(c, 1)`),
returning `l` unchanged when `c` does not occur. -/
def splitOnce (c : Char) (l : List Char) : List Char × List Char :=
  if l.contains c then
    (l.takeWhile (· != c), (l.dropWhile (· != c)).drop 1)
  else (l, [])

/-- CPython `_splitparams` applied by `urlparse` when `;` occurs in the
path: split at the first `;` after the last `/`. -/
def splitParams (l : List Char) : List Char × List Char :=
  if l.contains '/' then
    let afterSlash := (l.reverse.takeWhile (· != '/')).reverse
    if afterSlash.contains ';' then
      let before := l.take (l.length - afterSlash.length)
      let (p, ps) := splitOnce ';' afterSlash
      (before ++ p, ps)
    else (l, [])
  else
    splitOnce ';' l

/-- Model of `urllib.parse.urlparse` (the composition of `urlsplit` and
the params split). -/
def urlparse (url : String) : UrlParseResult :=
  let l := whatwgClean url.toList
  let (scheme, l) := splitScheme l
  let (netloc, l) :=
    match l with
    | '/' :: '/' :: rest => splitNetloc rest
    | _ => ([], l)
  let (l, fragment) := splitOnce '#' l
  let (l, query) := splitOnce '?' l
  let (path, params) := if l.contains ';' then splitParams l else (l, [])
  { scheme := scheme
    netloc := String.mk netloc
    path := String.mk path
    params := String.mk params
    query := String.mk query
    fragment := String.mk fragment }

/-! ### Classification Engine (`src/core/filter_manager.py`) -/

/-- `MatchType` enum (12 values, including the unhandled `EXPRESSION`). -/
inductive MatchType where
  | EXACT
  | CASE_INSENSITIVE
  | ANY
  | EXPRESSION
  | REGEX
  | STARTS_WITH
  | ENDS_WITH
  | CONTAINS
  | NOT_CONTAINS
  | NOT_STARTS_WITH
  | NOT_ENDS_WITH
  | NOT_REGEX
deriving Repr, DecidableEq

/-- `FilterAction` enum. -/
inductive FilterAction where
  | TO_DOWNLOAD
  | TO_SKIP
  | DELETED
  | IGNORE
  | SKIP
deriving Repr, DecidableEq

/-- `FilterRule`: token (legacy literal), match type, expression. -/
structure FilterRule where
  token : String
  match_type : MatchType
  expression : String := ""
deriving Repr, DecidableEq

/-- Outcome of `re.search(pattern, value)` seen as a boolean: `.ok b`
when the pattern compiles (`b` = a match was found), `.error ()` when
the pattern is invalid and `re.error` is raised. The regex engine is an
abstract parameter of the embedding. -/
def RegexOracle : Type := String → String → Except Unit Bool

/-- The needle a rule matches against: `expression` when non-empty,
else the legacy `token`. -/
def FilterRule.needle (self : FilterRule) : String :=
  if self.expression != "" then self.expression else self.token

/-- `FilterRule.matches`: the match-type branches mirror the source
`if` chain, the `except re.error` branch returns
`match_type == NOT_REGEX`, and the final `return False` catches the
unhandled `EXPRESSION` member. -/
def FilterRule.matches (reS : RegexOracle) (self : FilterRule)
    (value : String) : Bool :=
  let needle := self.needle
  match self.match_type with
  | .EXACT => value == needle
  | .CASE_INSENSITIVE => strLower value == strLower needle
  | .ANY => true
  | .STARTS_WITH => strStartsWith value needle
  | .ENDS_WITH => strEndsWith value needle
  | .CONTAINS => strContainsSub needle value
  | .NOT_CONTAINS => !(strContainsSub needle value)
  | .NOT_STARTS_WITH => !(strStartsWith value needle)
  | .NOT_ENDS_WITH => !(strEndsWith value needle)
  | .REGEX =>
    match reS needle value with
    | .ok b => b
    | .error _ => false
  | .NOT_REGEX =>
    match reS needle value with
    | .ok b => !b
    | .error _ => true
  | .EXPRESSION => false

/-- `LinkFilter`. -/
structure LinkFilter where
  id : String
  numeric_id : Option Int := none
  name : String
  rules : List FilterRule
  action : FilterAction
  enabled : Bool := true
  priority : Int := 0
  description : String := ""
deriving Repr, DecidableEq

/-- `LinkFilter._tokenize_url`: ordered URL tokens — non-empty
dot-separated netloc parts, non-empty `/`-separated path segments,
non-empty `&`-separated query parts, then the fragment if non-empty. -/
def tokenizeUrl (url : String) : List String :=
  let parsed := urlparse url
  let tokens : List String := []
  let tokens := tokens ++
    (if parsed.netloc != "" then
      (pySplit parsed.netloc '.').filter (· != "")
    else [])
  let tokens := tokens ++
    (if parsed.path != "" then
      (pySplit parsed.path '/').filter (· != "")
    else [])
  let tokens := tokens ++
    (if parsed.query != "" then
      (pySplit parsed.query '&').filter (· != "")
    else [])
  let tokens := tokens ++
    (if parsed.fragment != "" then [parsed.fragment] else [])
  tokens

/-- The positional rule loop of `LinkFilter.matches`: rule `i` is
applied to token `i`; any failure short-circuits to `false`. -/
def rulesMatchTokens (reS : RegexOracle) :
    List FilterRule → List String → Bool
  | [], _ => true
  | _ :: _, [] => false
  | r :: rs, t :: ts =>
    if r.matches reS t then rulesMatchTokens reS rs ts else false

/-- `LinkFilter.matches`: disabled filters never match; empty token
lists never match; more rules than tokens never match; otherwise all
rules must match positionally and the final `return len(self.rules) > 0`
rejects zero-rule filters. -/
def LinkFilter.matches (reS : RegexOracle) (self : LinkFilter)
    (url : String) : Bool :=
  if !self.enabled then false
  else
    let tokens := tokenizeUrl url
    if tokens.isEmpty then false
    else if tokens.length < self.rules.length then false
    else if rulesMatchTokens reS self.rules tokens then
      decide (0 < self.rules.length)
    else false

/-! ### FilterManager (`src/core/filter_manager.py`) -/

/-- The comparison realising `key=lambda f: f.priority, reverse=True`:
`f` may precede `g` when `g`'s priority does not exceed `f`'s. -/
def priorityDescLe (f g : LinkFilter) : Bool :=
  decide (g.priority ≤ f.priority)

/-- The sort used throughout `FilterManager`:
`self.filters.sort(key=lambda f: f.priority, reverse=True)` — a stable
sort placing higher priorities first. -/
def sortByPriorityDesc (l : List LinkFilter) : List LinkFilter :=
  l.mergeSort priorityDescLe

/-- Pure state of a `FilterManager`: in-memory filter list, the
`_next_numeric_id` counter and the persisted (`save_filters`) list. -/
structure FMState where
  filters : List LinkFilter
  nextNumericId : Int
  saved : List LinkFilter
deriving Repr, DecidableEq

/-- The max-scan of `load_filters`: `max_numeric`, seeded with 0, over
every filter already carrying a numeric id. -/
def maxNumericId (data : List LinkFilter) : Int :=
  data.foldl (fun m f =>
    match f.numeric_id with
    | some n => max m n
    | none => m) 0

/-- The assignment loop of `load_filters`: filters missing a numeric id
receive consecutive ids starting from the given counter, in list order. -/
def assignNumericIds (nid : Int) : List LinkFilter → List LinkFilter × Int
  | [] => ([], nid)
  | f :: fs =>
    match f.numeric_id with
    | none =>
      let r := assignNumericIds (nid + 1) fs
      ({ f with numeric_id := some nid } :: r.1, r.2)
    | some _ =>
      let r := assignNumericIds nid fs
      (f :: r.1, r.2)

/-- `FilterManager.load_filters` (pure part, on already-parsed data):
compute `max_numeric`, assign ids to filters lacking one, sort by
descending priority, persist the result. -/
def loadFilters (data : List LinkFilter) : FMState :=
  let maxN := maxNumericId data
  let assigned := (assignNumericIds (maxN + 1) data).1
  let sorted := sortByPriorityDesc assigned
  { filters := sorted,
    nextNumericId := (assignNumericIds (maxN + 1) data).2,
    saved := sorted }

/-- The fresh numeric id computed inside `add_filter`:
`(max(existing) + 1) if existing else 1`, over the current filters. -/
def addAssignedId (st : FMState) : Int :=
  match (st.filters.filterMap (fun g => g.numeric_id)).max? with
  | some m => m + 1
  | none => 1

/-- `FilterManager.add_filter`: a filter lacking a numeric id gets
`max(existing) + 1` (or 1 when no filter has an id), generic names are
rewritten to `Unnamed_<id>`, then append, re-sort and persist. -/
def addFilter (st : FMState) (f : LinkFilter) : FMState :=
  let f :=
    match f.numeric_id with
    | none =>
      let nextId := addAssignedId st
      let f := { f with numeric_id := some nextId }
      if f.name == "" || strStartsWith (strLower f.name) "unnamed" then
        { f with name := "Unnamed_" ++ toString nextId }
      else f
    | some _ => f
  let fs := sortByPriorityDesc (st.filters ++ [f])
  { st with filters := fs, saved := fs }

/-- `FilterManager.remove_filter`: drop the filter with the given
(opaque) id; persist only when something was actually removed. -/
def removeFilter (st : FMState) (fid : String) : Bool × FMState :=
  let fs := st.filters.filter (fun f => f.id != fid)
  if fs.length < st.filters.length then
    (true, { st with filters := fs, saved := fs })
  else (false, st)

/-- `FilterManager.find_matching_filter`: first filter (in the stored,
priority-sorted order) whose `matches` succeeds. -/
def findMatchingFilter (reS : RegexOracle) (st : FMState)
    (url : String) : Option LinkFilter :=
  st.filters.find? (fun f => f.matches reS url)

/-! ### Download Orchestrator (`src/core/download_manager.py`)

The external tool is an opaque subprocess; one in-flight item is
modelled by the observations the worker makes of it: a list of poll
`Tick`s while the process runs (the stop/skip flags read at the top of
the tick, whether the elapsed-time check fires, the output lines
drained), then an exit code and the lines still buffered at exit.

The `stop_event` and `skip_current` flags are set-only from outside
while a run is active, so they are threaded as monotone booleans that
absorb the per-observation-point external requests. -/

/-- `LinkStatus` enum. -/
inductive LinkStatus where
  | PENDING
  | TO_DOWNLOAD
  | TO_SKIP
  | TO_SKIP_LIMIT
  | TO_REPROCESS
  | DOWNLOADING
  | DOWNLOADED
  | SKIPPED
  | ERROR
deriving Repr, DecidableEq

/-- `LinkMetadata` (the fields the orchestrator reads or writes). -/
structure LinkMetadata where
  id : String
  url : String
  status : LinkStatus := .PENDING
  images_count : Nat := 0
  file_size_mb : Rat := 0
  error_message : String := ""
  deleted : Bool := false
deriving Repr, DecidableEq

/-- `DownloadStatus` enum. -/
inductive DownloadStatus where
  | IDLE
  | RUNNING
  | PAUSED
  | STOPPED
deriving Repr, DecidableEq

/-- `DownloadProgress` dataclass. -/
structure DownloadProgress where
  current_link : Option LinkMetadata := none
  current_progress : Rat := 0
  total_links : Nat := 0
  completed_links : Nat := 0
  failed_links : Nat := 0
  status : DownloadStatus := .IDLE
  current_operation : String := ""
  images_downloaded : Nat := 0
deriving Repr, DecidableEq

/-- Behaviour of one call of the injected `ask_user_decision` callback:
it either returns a boolean or raises. -/
inductive ResolverCall where
  | ret (b : Bool)
  | raises
deriving Repr, DecidableEq

/-- The Decision Gateway resolver as injected by the caller. -/
def Resolver : Type := LinkMetadata → String → ResolverCall

/-- `DownloadManager._ask_user_continue_or_skip`: consult the resolver
when registered; an exception from it is caught and falls through to
the fallback, which records `error(<limit_kind>)` on the link and
returns `False` (skip). Returns the decision and the updated link. -/
def askUserContinueOrSkip (resolver : Option Resolver)
    (link : LinkMetadata) (limitType : String) : Bool × LinkMetadata :=
  match resolver with
  | some f =>
    match f link limitType with
    | .ret b => (b, link)
    | .raises =>
      (false, { link with error_message := "error(" ++ limitType ++ ")" })
  | none =>
    (false, { link with error_message := "error(" ++ limitType ++ ")" })

/-- The configured `DownloadLimits` read by the manager. -/
structure DMConfig where
  max_images_per_link : Nat := 1000
  max_time_per_link : Nat := 3600
  max_file_size_mb : Rat := 500
deriving Repr, DecidableEq

/-- The streaming image heuristic of the poll loop (line classified as a
save/exists/download event). -/
def isImageLine (msg : String) : Bool :=
  let lower := strLower msg
  (strContainsSub "download" lower &&
    (strContainsSub "saving" lower || strContainsSub "downloaded" lower)) ||
  strContainsSub "exists" lower

/-- `DownloadManager._parse_gallery_dl_output`: count lines containing
`downloaded` or `saving` (case-insensitive); the file size is never
derived from the output and stays `0.0`. -/
def parseGalleryDlOutput (output : String) : Nat × Rat :=
  let lines := pySplit output '\n'
  ((lines.filter (fun line =>
      strContainsSub "downloaded" (strLower line) ||
      strContainsSub "saving" (strLower line))).length,
   0)

/-- One poll-loop iteration's observations of the running subprocess
and of the externally settable flags. -/
structure Tick where
  stopReq : Bool := false
  skipReq : Bool := false
  timedOut : Bool := false
  lines : List String := []
deriving Repr, DecidableEq

/-- Observations for one whole item of the batch. -/
structure ItemEnv where
  stopReqAtTop : Bool := false
  stopReqAfterPause : Bool := false
  ticks : List Tick := []
  exitCode : Int := 0
  finalLines : List String := []
  skipReqAfterItem : Bool := false
deriving Repr, DecidableEq

/-- Mutable state threaded through the poll loop of
`_download_single_link`. -/
structure PollState where
  stopEvent : Bool
  skipCurrent : Bool
  link : LinkMetadata
  progress : DownloadProgress
  imagesCount : Nat
  lastMsg : Option String
deriving Repr, DecidableEq

/-- How the `while process.poll() is None` loop ended. -/
inductive PollOutcome where
  | termStopSkip (st : PollState)
  | termTimeout (st : PollState)
  | exited (st : PollState)
deriving Repr, DecidableEq

/-- The drain section of one poll tick: strip each line, suppress
consecutive duplicates, apply the image heuristic, publish the line as
the current operation. -/
def drainLines (st : PollState) : List String → PollState
  | [] => st
  | line :: rest =>
    let msg := strTrim line
    if msg == "" then drainLines st rest
    else if st.lastMsg == some msg then drainLines st rest
    else
      let st := { st with lastMsg := some msg }
      let st :=
        if isImageLine msg then
          let ic := st.imagesCount + 1
          { st with
            imagesCount := ic
            progress := { st.progress with images_downloaded := ic } }
        else st
      let st :=
        { st with progress :=
          { st.progress with current_operation := msg } }
      drainLines st rest

/-- The supervising poll loop of `_download_single_link`: each tick
first absorbs external stop/skip requests and terminates on either,
then handles the elapsed-time check through the Decision Gateway
("continue" resets the baseline and falls through, "skip" records the
tagged error, sets `to_skip_limit` and terminates), then drains the
queued output lines. Ticks exhausted means the process exited. -/
def pollLoop (resolver : Option Resolver) (linkUrl : String) :
    PollState → List Tick → PollOutcome
  | st, [] => .exited st
  | st, t :: ts =>
    let st := { st with
      stopEvent := st.stopEvent || t.stopReq
      skipCurrent := st.skipCurrent || t.skipReq }
    if st.stopEvent || st.skipCurrent then .termStopSkip st
    else if t.timedOut then
      let ask := askUserContinueOrSkip resolver st.link "timeout"
      if ask.1 then
        pollLoop resolver linkUrl (drainLines { st with link := ask.2 } t.lines) ts
      else
        let link1 := { ask.2 with
          error_message := "error(timeout)"
          status := .TO_SKIP_LIMIT }
        .termTimeout { st with
          link := link1
          progress := { st.progress with
            current_operation := "Skipped (timeout): " ++ linkUrl } }
    else
      pollLoop resolver linkUrl (drainLines st t.lines) ts

/-- Result of `_download_single_link` plus the flag state it leaves. -/
structure SingleResult where
  success : Bool
  terminated : Bool
  stopEvent : Bool
  skipCurrent : Bool
  link : LinkMetadata
  progress : DownloadProgress
deriving Repr, DecidableEq

/-- Last non-empty (after strip) output line, scanning backwards. -/
def lastNonEmptyLine (stdout : String) : Option String :=
  ((pySplit stdout '\n').reverse.find? (fun line => strTrim line != "")).map
    strTrim

/-- The exit-code classification at the end of `_download_single_link`:
code 0 succeeds; otherwise the error message is the last non-empty
output line, or a generic `gallery-dl failed (code N)` message. -/
def finishExitCode (env : ItemEnv) (st : PollState)
    (link : LinkMetadata) : SingleResult :=
  if env.exitCode == 0 then
    { success := true, terminated := false, stopEvent := st.stopEvent,
      skipCurrent := st.skipCurrent, link := link, progress := st.progress }
  else
    let stdout := String.join env.finalLines
    let err :=
      match lastNonEmptyLine stdout with
      | some line => line
      | none => "gallery-dl failed (code " ++ toString env.exitCode ++ ")"
    { success := false, terminated := false, stopEvent := st.stopEvent,
      skipCurrent := st.skipCurrent,
      link := { link with error_message := err }, progress := st.progress }

/-- The post-exit file-size ceiling check (runs after the image-count
check; on breach resolved as skip it records `error(file_size)`, sets
`to_skip_limit` and ends the item before the exit code is read). -/
def checkFileSizeLimit (cfg : DMConfig) (resolver : Option Resolver)
    (env : ItemEnv) (st : PollState) (fileSize : Rat)
    (link : LinkMetadata) : SingleResult :=
  if fileSize > cfg.max_file_size_mb then
    let ask := askUserContinueOrSkip resolver link "file_size"
    if !ask.1 then
      let link1 := { ask.2 with
        error_message := "error(file_size)"
        status := .TO_SKIP_LIMIT }
      { success := false, terminated := false, stopEvent := st.stopEvent,
        skipCurrent := st.skipCurrent, link := link1,
        progress := { st.progress with
          current_operation := "Skipped (file_size): " ++ link1.url } }
    else finishExitCode env st ask.2
  else finishExitCode env st link

/-- `DownloadManager._download_single_link`: run the poll loop; on
stop/skip or timeout-skip the subprocess was terminated and the item
fails; on natural exit, join the final output, derive the image count
(max of the live tally and the final heuristic scan) and the file size,
run the image-count ceiling through the gateway, then the file-size
ceiling, then classify by exit code. -/
def downloadSingleLink (cfg : DMConfig) (resolver : Option Resolver)
    (stopEvent skipCurrent : Bool) (env : ItemEnv) (link : LinkMetadata)
    (progress : DownloadProgress) : SingleResult :=
  let st0 : PollState :=
    { stopEvent := stopEvent, skipCurrent := skipCurrent, link := link,
      progress := progress, imagesCount := 0, lastMsg := none }
  match pollLoop resolver link.url st0 env.ticks with
  | .termStopSkip st =>
    { success := false, terminated := true, stopEvent := st.stopEvent,
      skipCurrent := st.skipCurrent, link := st.link, progress := st.progress }
  | .termTimeout st =>
    { success := false, terminated := true, stopEvent := st.stopEvent,
      skipCurrent := st.skipCurrent, link := st.link, progress := st.progress }
  | .exited st =>
    let stdout := String.join env.finalLines
    let extraImages := (parseGalleryDlOutput stdout).1
    let fileSize := (parseGalleryDlOutput stdout).2
    let imagesCount := max st.imagesCount extraImages
    let link := { st.link with
      images_count := imagesCount
      file_size_mb := fileSize }
    if imagesCount > cfg.max_images_per_link then
      let ask := askUserContinueOrSkip resolver link "image_count"
      if !ask.1 then
        let link1 := { ask.2 with
          error_message := "error(image_count)"
          status := .TO_SKIP_LIMIT }
        { success := false, terminated := false, stopEvent := st.stopEvent,
          skipCurrent := st.skipCurrent, link := link1,
          progress := { st.progress with
            current_operation := "Skipped (image_count): " ++ link1.url } }
      else checkFileSizeLimit cfg resolver env st fileSize ask.2
    else checkFileSizeLimit cfg resolver env st fileSize link

/-- Final state of a worker run: progress, flags, and the batch links
with their final field values (links not reached are unchanged). -/
structure WorkerResult where
  progress : DownloadProgress
  stopEvent : Bool
  skipCurrent : Bool
  links : List LinkMetadata
deriving Repr, DecidableEq

/-- The per-item loop of `_download_worker`: check stop at the top,
wait out pause re-checking stop, mark the link `downloading`, run the
single-link download, then classify the completion — success counts and
`downloaded`; failure counts and `skipped` when skip-current is set,
untouched when the item already set `to_skip_limit`, else `error` —
clear skip-current and update the progress fraction. -/
def workerGo (cfg : DMConfig) (resolver : Option Resolver) (total : Nat) :
    Nat → Bool → Bool → DownloadProgress →
    List (LinkMetadata × ItemEnv) → WorkerResult
  | _, stopEvent, skipCurrent, progress, [] =>
    { progress := progress, stopEvent := stopEvent,
      skipCurrent := skipCurrent, links := [] }
  | i, stopEvent, skipCurrent, progress, (link, env) :: rest =>
    let stop1 := stopEvent || env.stopReqAtTop
    if stop1 then
      { progress := progress, stopEvent := stop1, skipCurrent := skipCurrent,
        links := link :: rest.map Prod.fst }
    else
      let stop2 := stop1 || env.stopReqAfterPause
      if stop2 then
        { progress := progress, stopEvent := stop2,
          skipCurrent := skipCurrent, links := link :: rest.map Prod.fst }
      else
        let progress := { progress with
          current_link := some link
          current_operation := "Downloading " ++ link.url
          current_progress := 0 }
        let link := { link with status := .DOWNLOADING }
        let r := downloadSingleLink cfg resolver stop2 skipCurrent env link
          progress
        let pl :=
          if r.success then
            ({ r.progress with completed_links := r.progress.completed_links + 1 },
             { r.link with status := .DOWNLOADED })
          else
            let progress :=
              { r.progress with failed_links := r.progress.failed_links + 1 }
            if r.skipCurrent || env.skipReqAfterItem then
              (progress, { r.link with status := .SKIPPED })
            else if r.link.status == .TO_SKIP_LIMIT then
              (progress, r.link)
            else
              (progress, { r.link with status := .ERROR })
        let progress := { pl.1 with
          current_progress := ((i + 1 : Nat) : Rat) / (total : Rat) }
        let res := workerGo cfg resolver total (i + 1) r.stopEvent false
          progress rest
        { res with links := pl.2 :: res.links }

/-- `DownloadManager._download_worker`: run the per-item loop, then the
`finally` block returns the run to `idle`, clears the current link and
publishes a final snapshot. -/
def downloadWorker (cfg : DMConfig) (resolver : Option Resolver)
    (stopEvent skipCurrent : Bool) (progress : DownloadProgress)
    (batch : List (LinkMetadata × ItemEnv)) : WorkerResult :=
  let r := workerGo cfg resolver batch.length 0 stopEvent skipCurrent
    progress batch
  { r with progress := { r.progress with
      status := .IDLE
      current_link := none
      current_operation := "Idle" } }

/-- Externally visible control state of a `DownloadManager`. -/
structure MgrState where
  links : List LinkMetadata
  progress : DownloadProgress
  stopEvent : Bool
  pauseEvent : Bool
  skipCurrent : Bool
deriving Repr, DecidableEq

/-- `LinkManager.get_downloadable_links`: active (non-deleted) links in
status `to_download`. -/
def getDownloadableLinks (links : List LinkMetadata) : List LinkMetadata :=
  (links.filter (fun l => !l.deleted)).filter
    (fun l => l.status == .TO_DOWNLOAD)

/-- The link resolution of `start_downloads`: an explicit non-empty id
list is looked up and filtered of deleted links (Python truthiness: an
empty list falls back to "all downloadable"). -/
def resolveStartLinks (st : MgrState) (linkIds : Option (List String)) :
    List LinkMetadata :=
  match linkIds with
  | some ids =>
    if ids.isEmpty then getDownloadableLinks st.links
    else
      (ids.filterMap (fun i => st.links.find? (fun l => l.id == i))).filter
        (fun l => !l.deleted)
  | none => getDownloadableLinks st.links

/-- The fresh `DownloadProgress` built by `start_downloads`. -/
def freshProgress (total : Nat) : DownloadProgress :=
  { total_links := total, completed_links := 0, failed_links := 0,
    status := .RUNNING }

/-- `DownloadManager.start_downloads`: reject (returning `False`, state
unchanged) when the run status is `running` or the resolved link set is
empty; otherwise clear the three control signals, install a fresh
progress snapshot and hand the batch to the worker. The third component
is the batch the started worker receives. -/
def startDownloads (st : MgrState) (linkIds : Option (List String)) :
    Bool × MgrState × List LinkMetadata :=
  if st.progress.status == .RUNNING then (false, st, [])
  else
    let links := resolveStartLinks st linkIds
    if links.isEmpty then (false, st, [])
    else
      (true,
       { st with
         stopEvent := false
         pauseEvent := false
         skipCurrent := false
         progress := freshProgress links.length },
       links)

/-- A registered progress callback; it may raise. -/
def ProgressCallback : Type := DownloadProgress → Except String Unit

/-- `DownloadManager._notify_progress`: every callback is invoked and
any exception it raises is caught and logged. -/
def notifyProgressResult (cbs : List ProgressCallback)
    (p : DownloadProgress) : Except String Unit :=
  cbs.foldlM (fun _ cb =>
    match cb p with
    | .ok _ => Except.ok ()
    | .error _ => Except.ok ()) ()

/-- `DownloadManager.stop_downloads`: set the run status to `stopped`,
raise the stop event and publish a snapshot; an uncaught exception
would surface as `.error`. -/
def stopDownloads (cbs : List ProgressCallback) (st : MgrState) :
    Except String MgrState :=
  let st1 := { st with
    progress := { st.progress with status := .STOPPED },
    stopEvent := true }
  match notifyProgressResult cbs st1.progress with
  | .ok _ => .ok st1
  | .error e => .error e

/-! ### Concrete objects used in examples and witnesses -/

/-- A regex engine that compiles everything and never matches. -/
def trivRe : RegexOracle := fun _ _ => .ok false

/-- A regex engine for which every pattern is invalid (`re.error`). -/
def badRe : RegexOracle := fun _ _ => .error ()

/-- A `match_any` rule. -/
def anyRule : FilterRule := { token := "", match_type := .ANY }

/-- A rule whose match type is the unhandled `match_expression`. -/
def exprRule : FilterRule := { token := "t", match_type := .EXPRESSION }

/-- A `match_regex` rule (its pattern is judged by the regex oracle). -/
def regexRule : FilterRule := { token := "[", match_type := .REGEX }

/-- A `match_not_regex` rule. -/
def notRegexRule : FilterRule := { token := "[", match_type := .NOT_REGEX }

/-! ### Helper lemmas: positional matching -/

/-- The positional loop succeeds iff every rule matches the token at
its own index (assuming at least as many tokens as rules). -/
theorem rulesMatchTokens_iff (reS : RegexOracle) :
    ∀ (rs : List FilterRule) (ts : List String), rs.length ≤ ts.length →
      (rulesMatchTokens reS rs ts = true ↔
        ∀ i (h1 : i < rs.length) (h2 : i < ts.length),
          (rs[i]).matches reS (ts[i]) = true)
  | [], ts, _ => by simp [rulesMatchTokens]
  | r :: rs, [], h => by simp at h
  | r :: rs, t :: ts, h => by
    have hlen : rs.length ≤ ts.length := by simpa using h
    simp only [rulesMatchTokens]
    constructor
    · intro hm i h1 h2
      by_cases hr : r.matches reS t = true
      · rw [if_pos hr] at hm
        match i with
        | 0 => simpa using hr
        | i + 1 =>
          have := (rulesMatchTokens_iff reS rs ts hlen).mp hm
          simpa using this i (by simpa using h1) (by simpa using h2)
      · rw [if_neg hr] at hm
        exact absurd hm (by simp)
    · intro hall
      have hr : r.matches reS t = true := by
        simpa using hall 0 (by simp) (by simp)
      rw [if_pos hr]
      refine (rulesMatchTokens_iff reS rs ts hlen).mpr ?_
      intro i h1 h2
      simpa using hall (i + 1) (by simpa using h1) (by simpa using h2)

/-- Characterisation of `LinkFilter.matches`, read off the source:
enabled, at least one rule, no more rules than tokens, and every rule
matches its positional token. -/
theorem linkFilter_matches_iff (reS : RegexOracle) (F : LinkFilter)
    (url : String) :
    F.matches reS url = true ↔
      (F.enabled = true ∧ F.rules ≠ [] ∧
       F.rules.length ≤ (tokenizeUrl url).length ∧
       ∀ i (h1 : i < F.rules.length) (h2 : i < (tokenizeUrl url).length),
         (F.rules[i]).matches reS ((tokenizeUrl url)[i]) = true) := by
  simp only [LinkFilter.matches]
  split_ifs with h1 h2 h3 h4
  · have hdis : F.enabled = false := by simpa using h1
    simp [hdis]
  · have htok : tokenizeUrl url = [] := by
      simpa [List.isEmpty_iff] using h2
    simp only [Bool.false_eq_true, false_iff, htok, List.length_nil,
      Nat.le_zero, List.length_eq_zero]
    rintro ⟨-, hne, hnil, -⟩
    exact hne hnil
  · simp only [Bool.false_eq_true, false_iff]
    rintro ⟨-, -, hle, -⟩
    omega
  · have hle : F.rules.length ≤ (tokenizeUrl url).length := by omega
    constructor
    · intro hpos
      have hlen0 : 0 < F.rules.length := by simpa using hpos
      refine ⟨by simpa using h1, ?_, hle,
        (rulesMatchTokens_iff reS F.rules (tokenizeUrl url) hle).mp h4⟩
      intro hnil
      rw [hnil] at hlen0
      simp at hlen0
    · rintro ⟨-, hne, -, -⟩
      simpa using List.length_pos.mpr hne
  · simp only [Bool.false_eq_true, false_iff]
    rintro ⟨-, -, hle2, hall⟩
    exact h4 ((rulesMatchTokens_iff reS F.rules (tokenizeUrl url)
      hle2).mpr hall)

/-! ### Claim theorems: classification engine -/

/-- The spec-side description of the token sequence for C5: the
dot-separated host labels. -/
def hostLabelTokens (url : String) : List String :=
  (pySplit (urlparse url).netloc '.').filter (· != "")

/-- C5 spec-side: the non-empty path segments. -/
def pathSegmentTokens (url : String) : List String :=
  (pySplit (urlparse url).path '/').filter (· != "")

/-- C5 spec-side: the `&`-separated query fragments. -/
def queryPartTokens (url : String) : List String :=
  (pySplit (urlparse url).query '&').filter (· != "")

/-- C5 spec-side: the URL fragment, when present. -/
def urlFragmentTokens (url : String) : List String :=
  if (urlparse url).fragment != "" then [(urlparse url).fragment] else []

/-- C5: `tokenize` produces, in order, the host labels, the non-empty
path segments, the query fragments and the URL fragment — scheme and
the raw host/path strings are excluded — and on
`https://a.b.com/p1/p2?x=1&y=2#frag` yields exactly
`[a, b, com, p1, p2, x=1, y=2, frag]`. -/
theorem C5_tokenize_order :
    (∀ url, tokenizeUrl url =
      hostLabelTokens url ++ pathSegmentTokens url ++
      queryPartTokens url ++ urlFragmentTokens url) ∧
    tokenizeUrl "https://a.b.com/p1/p2?x=1&y=2#frag" =
      ["a", "b", "com", "p1", "p2", "x=1", "y=2", "frag"] := by
  constructor
  · intro url
    unfold tokenizeUrl hostLabelTokens pathSegmentTokens queryPartTokens
      urlFragmentTokens
    by_cases hn : (urlparse url).netloc = "" <;>
      by_cases hp : (urlparse url).path = "" <;>
        by_cases hq : (urlparse url).query = "" <;>
          simp [hn, hp, hq, pySplit, splitOnChar]
  · decide

/-- C6: `Filter.matches(url)` holds exactly when the filter is enabled,
has at least one rule, has no more rules than `tokenize(url)` has
tokens, and rule `i` matches token `i` for every index; consequently a
disabled filter never matches, a zero-rule filter never matches, and a
filter with more rules than tokens never matches. -/
theorem C6_matches_characterization :
    (∀ (reS : RegexOracle) (F : LinkFilter) (url : String),
      F.matches reS url = true ↔
        (F.enabled = true ∧ F.rules ≠ [] ∧
         F.rules.length ≤ (tokenizeUrl url).length ∧
         ∀ i (h1 : i < F.rules.length)
           (h2 : i < (tokenizeUrl url).length),
           (F.rules[i]).matches reS ((tokenizeUrl url)[i]) = true)) ∧
    (∀ (reS : RegexOracle) (F : LinkFilter) (url : String),
      F.enabled = false → F.matches reS url = false) ∧
    (∀ (reS : RegexOracle) (F : LinkFilter) (url : String),
      F.rules = [] → F.matches reS url = false) ∧
    (∀ (reS : RegexOracle) (F : LinkFilter) (url : String),
      (tokenizeUrl url).length < F.rules.length →
        F.matches reS url = false) := by
  refine ⟨linkFilter_matches_iff, ?_, ?_, ?_⟩
  · intro reS F url hdis
    rcases hm : F.matches reS url with - | -
    · rfl
    · rcases (linkFilter_matches_iff reS F url).mp hm with ⟨hen, -, -, -⟩
      rw [hdis] at hen
      exact absurd hen (by simp)
  · intro reS F url hrules
    rcases hm : F.matches reS url with - | -
    · rfl
    · rcases (linkFilter_matches_iff reS F url).mp hm with ⟨-, hne, -, -⟩
      exact absurd hrules hne
  · intro reS F url hlt
    rcases hm : F.matches reS url with - | -
    · rfl
    · rcases (linkFilter_matches_iff reS F url).mp hm with ⟨-, -, hle, -⟩
      omega

/-- A disabled one-rule filter, for the C6 witness. -/
def disabledFilter : LinkFilter :=
  { id := "d", name := "d", rules := [anyRule], action := .TO_DOWNLOAD,
    enabled := false }

/-- C6 witness: the characterisation applied to a concrete disabled
filter and URL. -/
theorem C6_matches_characterization_witness :
    disabledFilter.enabled = false ∧
    disabledFilter.matches trivRe "https://a.b.com/x" = false :=
  ⟨rfl, C6_matches_characterization.2.1 trivRe disabledFilter
    "https://a.b.com/x" rfl⟩

/-- C8: with an invalid regex pattern (the oracle reports `re.error`),
`match_regex` degrades to `false` and `match_not_regex` degrades to
`true`; the error is caught inside `Rule.matches` and never propagates
(the embedding returns a plain boolean along both branches). -/
theorem C8_invalid_regex_degrades (reS : RegexOracle) (r : FilterRule)
    (value : String) (hbad : reS r.needle value = .error ()) :
    (r.match_type = .REGEX → r.matches reS value = false) ∧
    (r.match_type = .NOT_REGEX → r.matches reS value = true) := by
  constructor <;> intro hty <;> simp [FilterRule.matches, hty, hbad]

/-- C8 witness: a concrete always-invalid oracle with concrete regex
and negated-regex rules. -/
theorem C8_invalid_regex_degrades_witness :
    regexRule.matches badRe "v" = false ∧
    notRegexRule.matches badRe "v" = true :=
  ⟨(C8_invalid_regex_degrades badRe regexRule "v" rfl).1 rfl,
   (C8_invalid_regex_degrades badRe notRegexRule "v" rfl).2 rfl⟩

/-- C10: no branch of `Rule.matches` handles `match_expression`, so
such a rule never matches any token, and a filter containing one never
matches any URL. -/
theorem C10_expression_never_matches :
    (∀ (reS : RegexOracle) (r : FilterRule) (value : String),
      r.match_type = .EXPRESSION → r.matches reS value = false) ∧
    (∀ (reS : RegexOracle) (F : LinkFilter) (url : String),
      (∃ r ∈ F.rules, r.match_type = .EXPRESSION) →
        F.matches reS url = false) := by
  have hrule : ∀ (reS : RegexOracle) (r : FilterRule) (value : String),
      r.match_type = .EXPRESSION → r.matches reS value = false := by
    intro reS r value hty
    simp [FilterRule.matches, hty]
  refine ⟨hrule, ?_⟩
  intro reS F url hex
  rcases hm : F.matches reS url with - | -
  · rfl
  · rcases (linkFilter_matches_iff reS F url).mp hm with ⟨-, -, hle, hall⟩
    rcases hex with ⟨r, hrmem, hrty⟩
    rcases List.mem_iff_getElem.mp hrmem with ⟨i, hi, hget⟩
    have := hall i hi (by omega)
    rw [hget, hrule reS r _ hrty] at this
    exact absurd this (by simp)

/-- A filter containing the unhandled `match_expression` rule, for the
C10 witness. -/
def exprFilter : LinkFilter :=
  { id := "e", name := "e", rules := [exprRule], action := .TO_DOWNLOAD }

/-- C10 witness: the concrete `match_expression` rule and a filter
containing it, evaluated at a URL whose token list is long enough. -/
theorem C10_expression_never_matches_witness :
    exprRule.matches trivRe "t" = false ∧
    exprFilter.matches trivRe "https://a.b.com/t" = false :=
  ⟨C10_expression_never_matches.1 trivRe exprRule "t" rfl,
   C10_expression_never_matches.2 trivRe exprFilter "https://a.b.com/t"
     ⟨exprRule, by simp [exprFilter], rfl⟩⟩

/-! ### Helper lemmas: the priority sort and numeric-id allocation -/

/-- `priorityDescLe` is transitive. -/
theorem priorityDescLe_trans (a b c : LinkFilter) :
    priorityDescLe a b = true → priorityDescLe b c = true →
    priorityDescLe a c = true := by
  simp only [priorityDescLe, decide_eq_true_eq]
  omega

/-- `priorityDescLe` is total. -/
theorem priorityDescLe_total (a b : LinkFilter) :
    (priorityDescLe a b || priorityDescLe b a) = true := by
  simp only [priorityDescLe, Bool.or_eq_true, decide_eq_true_eq]
  omega

/-- Membership is preserved by the priority sort. -/
theorem mem_sortByPriorityDesc {f : LinkFilter} {l : List LinkFilter} :
    f ∈ sortByPriorityDesc l ↔ f ∈ l :=
  (List.mergeSort_perm l priorityDescLe).mem_iff

/-- `find?` on a descending-priority-sorted list returns a filter whose
priority dominates every other hit. -/
theorem find?_first_priority (p : LinkFilter → Bool) :
    ∀ (l : List LinkFilter),
      List.Pairwise (fun a b : LinkFilter => b.priority ≤ a.priority) l →
      ∀ f, l.find? p = some f →
      ∀ g ∈ l, p g = true → g.priority ≤ f.priority := by
  intro l
  induction l with
  | nil => intro _ f hfind; simp at hfind
  | cons a t ih =>
    intro hpw f hfind g hg hpg
    rcases List.pairwise_cons.mp hpw with ⟨ha, ht⟩
    by_cases hpa : p a = true
    · rw [List.find?_cons_of_pos _ hpa, Option.some_inj] at hfind
      subst hfind
      rcases List.mem_cons.mp hg with hga | hgt
      · subst hga; exact le_refl _
      · exact ha g hgt
    · rw [List.find?_cons_of_neg _ hpa] at hfind
      rcases List.mem_cons.mp hg with hga | hgt
      · subst hga; exact absurd hpg hpa
      · exact ih ht f hfind g hgt hpg

/-- The `max_numeric` fold is monotone in its accumulator. -/
theorem maxNumericId_foldl_mono :
    ∀ (l : List LinkFilter) (acc : Int),
      acc ≤ l.foldl (fun m f =>
        match f.numeric_id with
        | some n => max m n
        | none => m) acc := by
  intro l
  induction l with
  | nil => intro acc; simp
  | cons a t ih =>
    intro acc
    refine le_trans ?_ (by simpa using ih (match a.numeric_id with
      | some n => max acc n
      | none => acc))
    rcases a.numeric_id with - | n
    · simp
    · simp [le_max_left]

/-- Every numeric id present in the data is bounded by `max_numeric`. -/
theorem le_maxNumericId :
    ∀ (data : List LinkFilter) (g : LinkFilter) (m : Int),
      g ∈ data → g.numeric_id = some m → m ≤ maxNumericId data := by
  have haux : ∀ (l : List LinkFilter) (acc : Int) (g : LinkFilter) (m : Int),
      g ∈ l → g.numeric_id = some m →
      m ≤ l.foldl (fun m f =>
        match f.numeric_id with
        | some n => max m n
        | none => m) acc := by
    intro l
    induction l with
    | nil => intro acc g m hg; simp at hg
    | cons a t ih =>
      intro acc g m hg hgid
      rcases List.mem_cons.mp hg with hga | hgt
      · subst hga
        refine le_trans ?_ (maxNumericId_foldl_mono t _)
        simp [hgid, le_max_right]
      · simpa using ih _ g m hgt hgid
  intro data g m hg hgid
  exact haux data 0 g m hg hgid

/-- The numeric ids appearing after the assignment loop are either ids
already present in the input or at least the starting counter. -/
theorem assignNumericIds_mem_ids :
    ∀ (fs : List LinkFilter) (nid : Int) (f : LinkFilter) (n : Int),
      f ∈ (assignNumericIds nid fs).1 → f.numeric_id = some n →
      (∃ g ∈ fs, g.numeric_id = some n) ∨ nid ≤ n := by
  intro fs
  induction fs with
  | nil => intro nid f n hf; simp [assignNumericIds] at hf
  | cons a t ih =>
    intro nid f n hf hfid
    rcases haid : a.numeric_id with - | k
    · simp only [assignNumericIds, haid] at hf
      rcases List.mem_cons.mp hf with hfa | hft
      · subst hfa
        simp only at hfid
        right
        simp only [Option.some_inj] at hfid
        omega
      · rcases ih (nid + 1) f n hft hfid with ⟨g, hg, hgid⟩ | hge
        · exact Or.inl ⟨g, List.mem_cons_of_mem a hg, hgid⟩
        · right; omega
    · simp only [assignNumericIds, haid] at hf
      rcases List.mem_cons.mp hf with hfa | hft
      · subst hfa
        exact Or.inl ⟨f, List.mem_cons_self _ _, hfid⟩
      · rcases ih nid f n hft hfid with ⟨g, hg, hgid⟩ | hge
        · exact Or.inl ⟨g, List.mem_cons_of_mem a hg, hgid⟩
        · exact Or.inr hge

/-- After the assignment loop every filter carries a numeric id. -/
theorem assignNumericIds_all_some :
    ∀ (fs : List LinkFilter) (nid : Int) (f : LinkFilter),
      f ∈ (assignNumericIds nid fs).1 → f.numeric_id ≠ none := by
  intro fs
  induction fs with
  | nil => intro nid f hf; simp [assignNumericIds] at hf
  | cons a t ih =>
    intro nid f hf
    rcases haid : a.numeric_id with - | k
    · simp only [assignNumericIds, haid] at hf
      rcases List.mem_cons.mp hf with hfa | hft
      · subst hfa; simp
      · exact ih (nid + 1) f hft
    · simp only [assignNumericIds, haid] at hf
      rcases List.mem_cons.mp hf with hfa | hft
      · subst hfa; simp [haid]
      · exact ih nid f hft

/-- The assignment loop is the identity when every filter already has a
numeric id. -/
theorem assignNumericIds_of_all_some :
    ∀ (fs : List LinkFilter) (nid : Int),
      (∀ f ∈ fs, f.numeric_id ≠ none) →
      assignNumericIds nid fs = (fs, nid) := by
  intro fs
  induction fs with
  | nil => intro nid _; rfl
  | cons a t ih =>
    intro nid hall
    rcases haid : a.numeric_id with - | k
    · exact absurd haid (hall a (List.mem_cons_self _ _))
    · simp only [assignNumericIds, haid,
        ih nid (fun f hf => hall f (List.mem_cons_of_mem a hf))]

/-- The filter list produced by `load_filters`, spelled out. -/
theorem loadFilters_filters (data : List LinkFilter) :
    (loadFilters data).filters =
      sortByPriorityDesc
        (assignNumericIds (maxNumericId data + 1) data).1 := rfl

/-- `load_filters` leaves the filter list sorted by descending
priority. -/
theorem loadFilters_sorted (data : List LinkFilter) :
    List.Pairwise (fun a b : LinkFilter => b.priority ≤ a.priority)
      (loadFilters data).filters := by
  rw [loadFilters_filters]
  have := List.sorted_mergeSort priorityDescLe_trans
    priorityDescLe_total (assignNumericIds (maxNumericId data + 1) data).1
  refine this.imp ?_
  intro a b hab
  simpa [priorityDescLe] using hab

/-! ### Claim theorems: FilterManager -/

/-- Priority-3 filter for the C7 example. -/
def prio3Filter : LinkFilter :=
  { id := "p3", name := "three", rules := [anyRule],
    action := .TO_DOWNLOAD, priority := 3 }

/-- Priority-5 filter for the C7 example. -/
def prio5Filter : LinkFilter :=
  { id := "p5", name := "five", rules := [anyRule],
    action := .TO_DOWNLOAD, priority := 5 }

unseal List.merge List.mergeSort in
/-- C7: after `load_filters` the filter list is sorted by descending
priority with ties keeping their load order (stable sort), and
`find_matching_filter` returns the first filter in that order whose
`matches` succeeds — hence, when the list is priority-sorted, a hit of
maximal priority — or none when no filter matches; on two filters of
priorities 5 and 3 that both match, the priority-5 filter is
returned. -/
theorem C7_find_matching_filter :
    (∀ data : List LinkFilter,
      List.Pairwise (fun a b : LinkFilter => b.priority ≤ a.priority)
        (loadFilters data).filters) ∧
    (∀ (data : List LinkFilter) (a b : LinkFilter),
      a.priority = b.priority →
      List.Sublist [a, b] (assignNumericIds (maxNumericId data + 1) data).1 →
      List.Sublist [a, b] (loadFilters data).filters) ∧
    (∀ (reS : RegexOracle) (st : FMState) (url : String),
      (∀ f, findMatchingFilter reS st url = some f →
        f.matches reS url = true ∧
        (List.Pairwise (fun a b : LinkFilter => b.priority ≤ a.priority)
            st.filters →
          ∀ g ∈ st.filters, g.matches reS url = true →
            g.priority ≤ f.priority)) ∧
      (findMatchingFilter reS st url = none →
        ∀ g ∈ st.filters, g.matches reS url = false)) ∧
    ((findMatchingFilter trivRe (loadFilters [prio3Filter, prio5Filter])
        "https://a.b.com/x").map (fun f => f.id) = some "p5" ∧
      prio3Filter.matches trivRe "https://a.b.com/x" = true ∧
      prio5Filter.matches trivRe "https://a.b.com/x" = true) := by
  refine ⟨loadFilters_sorted, ?_, ?_, ?_⟩
  · intro data a b hpr hsub
    rw [loadFilters_filters]
    exact List.pair_sublist_mergeSort priorityDescLe_trans
      priorityDescLe_total (by simp [priorityDescLe, hpr]) hsub
  · intro reS st url
    constructor
    · intro f hfind
      have hf : st.filters.find? (fun g => g.matches reS url) = some f := hfind
      refine ⟨by simpa using List.find?_some hf, ?_⟩
      intro hsorted g hg hgm
      exact find?_first_priority _ st.filters hsorted f hf g hg hgm
    · intro hnone g hg
      have hn : st.filters.find? (fun g => g.matches reS url) = none := hnone
      have := List.find?_eq_none.mp hn g hg
      simpa using this
  · exact ⟨by decide, by decide, by decide⟩

/-- Tied-priority filters for the C7 witness. -/
def tieAFilter : LinkFilter :=
  { id := "tA", name := "ta", rules := [], action := .TO_SKIP, priority := 7 }

/-- Second tied-priority filter for the C7 witness. -/
def tieBFilter : LinkFilter :=
  { id := "tB", name := "tb", rules := [], action := .TO_SKIP, priority := 7 }

/-- C7 witness: the stability clause applied to two concrete filters of
equal priority — their load order survives the sort. -/
theorem C7_find_matching_filter_witness :
    List.Sublist
      [{ tieAFilter with numeric_id := some 1 },
       { tieBFilter with numeric_id := some 2 }]
      (loadFilters [tieAFilter, tieBFilter]).filters :=
  C7_find_matching_filter.2.1 [tieAFilter, tieBFilter]
    { tieAFilter with numeric_id := some 1 }
    { tieBFilter with numeric_id := some 2 }
    rfl (by decide)

/-! ### Claim C9: numeric-id allocation -/

/-- Every member of a list of integers is bounded by its `max?`. -/
theorem mem_le_list_max? (l : List Int) (m : Int) (h : m ∈ l) :
    ∃ M, l.max? = some M ∧ m ≤ M := by
  cases hM : l.max? with
  | none =>
    rw [List.max?_eq_none_iff] at hM
    subst hM
    simp at h
  | some M =>
    haveI : Std.Antisymm fun x1 x2 : Int => x1 ≤ x2 :=
      ⟨fun h1 h2 => le_antisymm h1 h2⟩
    have := (List.max?_eq_some_iff (fun a => le_refl a)
      (fun a b => max_choice a b) (fun a b c => max_le_iff)).mp hM
    exact ⟨M, rfl, this.2 m h⟩

/-- Every numeric id present among the current filters is strictly
below the id `add_filter` would assign. -/
theorem lt_addAssignedId (st : FMState) (g : LinkFilter) (m : Int)
    (hg : g ∈ st.filters) (hgid : g.numeric_id = some m) :
    m < addAssignedId st := by
  have hmem : m ∈ st.filters.filterMap (fun g => g.numeric_id) :=
    List.mem_filterMap.mpr ⟨g, hg, hgid⟩
  rcases mem_le_list_max? _ m hmem with ⟨M, hM, hle⟩
  unfold addAssignedId
  simp only [hM]
  omega

/-- Filter "A" for the C9 counterexample (no numeric id). -/
def c9A : LinkFilter :=
  { id := "A", name := "fa", rules := [], action := .TO_SKIP }

/-- Filter "B" for the C9 counterexample (no numeric id). -/
def c9B : LinkFilter :=
  { id := "B", name := "fb", rules := [], action := .TO_SKIP }

/-- Filter "C" for the C9 counterexample (no numeric id). -/
def c9C : LinkFilter :=
  { id := "C", name := "fc", rules := [], action := .TO_SKIP }

/-- The manager after adding "A" then "B" to an empty store. -/
def c9Mgr2 : FMState := addFilter (addFilter (loadFilters []) c9A) c9B

/-- The manager after additionally removing "B" and adding "C". -/
def c9Mgr4 : FMState := addFilter (removeFilter c9Mgr2 "B").2 c9C

unseal List.merge List.mergeSort in
/-- C9 counterexample: "B" is assigned numeric id 2; after "B" is
removed, the freshly added "C" is assigned 2 again — the freshly
assigned id is not strictly greater than all previously assigned ids,
and a numeric id is reused. -/
theorem C9_counterexample :
    ((c9Mgr2.filters.find? (fun f => f.id == "B")).map
      (fun f => f.numeric_id)) = some (some 2) ∧
    ((c9Mgr4.filters.find? (fun f => f.id == "C")).map
      (fun f => f.numeric_id)) = some (some 2) ∧
    ¬ ((2 : Int) > 2) := by
  exact ⟨by decide, by decide, by decide⟩

/-- C9 (amended): ids assigned on load are either pre-existing or
strictly greater than every id in the loaded data; the assignment is
persisted at once; a reload leaves the filter list (ids included)
unchanged; and an id assigned by `add_filter` is strictly greater than
every id present among the current filters, lands in the stored (and
persisted) list on the added filter. After a removal, however, an id
may be reassigned (see the counterexample). -/
theorem C9_numeric_ids_amended :
    (∀ (data : List LinkFilter) (f : LinkFilter) (n : Int),
      f ∈ (loadFilters data).filters → f.numeric_id = some n →
      (∃ g ∈ data, g.numeric_id = some n) ∨
      (∀ g ∈ data, ∀ m : Int, g.numeric_id = some m → m < n)) ∧
    (∀ data : List LinkFilter,
      (loadFilters data).saved = (loadFilters data).filters) ∧
    (∀ data : List LinkFilter,
      (loadFilters ((loadFilters data).filters)).filters =
        (loadFilters data).filters) ∧
    (∀ (st : FMState) (f : LinkFilter), f.numeric_id = none →
      (∀ g ∈ st.filters, ∀ m : Int, g.numeric_id = some m →
        m < addAssignedId st) ∧
      (∃ f1 ∈ (addFilter st f).filters,
        f1.id = f.id ∧ f1.numeric_id = some (addAssignedId st)) ∧
      (addFilter st f).saved = (addFilter st f).filters) := by
  refine ⟨?_, fun _ => rfl, ?_, ?_⟩
  · intro data f n hf hfid
    rw [loadFilters_filters] at hf
    have hf2 := mem_sortByPriorityDesc.mp hf
    rcases assignNumericIds_mem_ids data (maxNumericId data + 1) f n hf2
      hfid with hex | hge
    · exact Or.inl hex
    · refine Or.inr fun g hg m hgid => ?_
      have := le_maxNumericId data g m hg hgid
      omega
  · intro data
    have hallsome : ∀ f ∈ (loadFilters data).filters,
        f.numeric_id ≠ none := by
      intro f hf
      rw [loadFilters_filters] at hf
      exact assignNumericIds_all_some _ _ f (mem_sortByPriorityDesc.mp hf)
    have hassign := assignNumericIds_of_all_some ((loadFilters data).filters)
      (maxNumericId ((loadFilters data).filters) + 1) hallsome
    calc (loadFilters ((loadFilters data).filters)).filters
        = sortByPriorityDesc
            (assignNumericIds
              (maxNumericId ((loadFilters data).filters) + 1)
              ((loadFilters data).filters)).1 := loadFilters_filters _
      _ = sortByPriorityDesc ((loadFilters data).filters) := by
            rw [hassign]
      _ = (loadFilters data).filters := by
            apply List.mergeSort_of_sorted
            refine (loadFilters_sorted data).imp ?_
            intro a b hab
            simpa [priorityDescLe] using hab
  · intro st f hfid
    refine ⟨fun g hg m hgid => lt_addAssignedId st g m hg hgid, ?_, rfl⟩
    simp only [addFilter, hfid]
    split
    · refine ⟨{ f with
        numeric_id := some (addAssignedId st)
        name := "Unnamed_" ++ toString (addAssignedId st) },
        mem_sortByPriorityDesc.mpr (by simp), rfl, rfl⟩
    · refine ⟨{ f with numeric_id := some (addAssignedId st) },
        mem_sortByPriorityDesc.mpr (by simp), rfl, rfl⟩

unseal List.merge List.mergeSort in
/-- C9 witness: the amended load clause applied to a concrete data
list — the filter loaded without an id ends with id 3, strictly above
the pre-existing ids 1 and 2. -/
theorem C9_numeric_ids_amended_witness :
    (∃ g ∈ [{ c9A with numeric_id := some 1 },
            { c9B with numeric_id := some 2 }, c9C],
        g.numeric_id = some 3) ∨
    (∀ g ∈ [{ c9A with numeric_id := some 1 },
            { c9B with numeric_id := some 2 }, c9C],
        ∀ m : Int, g.numeric_id = some m → m < 3) :=
  C9_numeric_ids_amended.1
    [{ c9A with numeric_id := some 1 },
     { c9B with numeric_id := some 2 }, c9C]
    { c9C with numeric_id := some 3 } 3
    (by decide) rfl

/-! ### Claim theorems: Decision Gateway and start contract -/

/-- C4: with no resolver registered the gateway returns `false`
("skip") and records `error(<limit_kind>)` on the link; an exception
from a registered resolver is caught and handled identically — the
call returns `false` instead of propagating. -/
theorem C4_gateway_default_deny :
    (∀ (link : LinkMetadata) (kind : String),
      askUserContinueOrSkip none link kind =
        (false, { link with error_message := "error(" ++ kind ++ ")" })) ∧
    (∀ (f : Resolver) (link : LinkMetadata) (kind : String),
      f link kind = .raises →
      askUserContinueOrSkip (some f) link kind =
        (false, { link with error_message := "error(" ++ kind ++ ")" })) := by
  refine ⟨fun link kind => rfl, ?_⟩
  intro f link kind hf
  simp [askUserContinueOrSkip, hf]

/-- A resolver whose every call raises, for the C4 witness. -/
def raisingResolver : Resolver := fun _ _ => .raises

/-- A plain link used by concrete orchestrator examples. -/
def c4Link : LinkMetadata := { id := "L", url := "u" }

/-- C4 witness: the raising-resolver clause at a concrete link and
limit kind. -/
theorem C4_gateway_default_deny_witness :
    askUserContinueOrSkip (some raisingResolver) c4Link "timeout" =
      (false, { c4Link with error_message := "error(timeout)" }) :=
  C4_gateway_default_deny.2 raisingResolver c4Link "timeout" rfl

/-- A link in status `to_download`, for the C2 example states. -/
def dlReadyLink : LinkMetadata :=
  { id := "L1", url := "u1", status := .TO_DOWNLOAD }

/-- A manager with a paused run in progress: the batch is mid-run, the
worker is waiting on the pause flag. -/
def pausedMgr : MgrState :=
  { links := [dlReadyLink],
    progress := { total_links := 1, status := .PAUSED },
    stopEvent := false, pauseEvent := true, skipCurrent := false }

/-- C2 counterexample: a paused run is an active run, yet
`start_downloads` does not reject it — it accepts (returns `true`) and
replaces the state, because the code only checks for status
`running`. -/
theorem C2_counterexample :
    pausedMgr.progress.status = .PAUSED ∧
    pausedMgr.progress.status ≠ .IDLE ∧
    (startDownloads pausedMgr none).1 = true ∧
    (startDownloads pausedMgr none).2.1 ≠ pausedMgr := by
  exact ⟨rfl, by decide, by decide, by decide⟩

/-- C2 (amended): `start_downloads` rejects — returning failure with no
state change — exactly when the run status is `running` (a paused run
is not rejected) or the resolved link set is empty; on acceptance it
clears the stop, pause and skip-current signals, installs a fresh
snapshot whose total is the batch size with status `running`, and
starts the worker on the resolved links. -/
theorem C2_start_downloads_amended :
    (∀ (st : MgrState) (ids : Option (List String)),
      st.progress.status = .RUNNING →
      startDownloads st ids = (false, st, [])) ∧
    (∀ (st : MgrState) (ids : Option (List String)),
      st.progress.status ≠ .RUNNING → resolveStartLinks st ids = [] →
      startDownloads st ids = (false, st, [])) ∧
    (∀ (st : MgrState) (ids : Option (List String)),
      st.progress.status ≠ .RUNNING → resolveStartLinks st ids ≠ [] →
      startDownloads st ids =
        (true,
         { st with
           stopEvent := false
           pauseEvent := false
           skipCurrent := false
           progress := freshProgress (resolveStartLinks st ids).length },
         resolveStartLinks st ids)) ∧
    (∀ n : Nat, freshProgress n =
      { current_link := none, current_progress := 0, total_links := n,
        completed_links := 0, failed_links := 0, status := .RUNNING,
        current_operation := "", images_downloaded := 0 }) := by
  refine ⟨?_, ?_, ?_, fun n => rfl⟩
  · intro st ids h
    simp [startDownloads, h]
  · intro st ids h1 h2
    simp [startDownloads, beq_iff_eq, h1, h2]
  · intro st ids h1 h2
    simp only [startDownloads, beq_iff_eq, if_neg h1]
    rw [if_neg (by simpa [List.isEmpty_iff] using h2)]

/-- A manager whose run status is `running`, for the C2 witness. -/
def runningMgr : MgrState :=
  { links := [dlReadyLink],
    progress := { total_links := 1, status := .RUNNING },
    stopEvent := false, pauseEvent := false, skipCurrent := false }

/-- C2 witness: the reject clause at a concrete running manager. -/
theorem C2_start_downloads_amended_witness :
    startDownloads runningMgr none = (false, runningMgr, []) :=
  C2_start_downloads_amended.1 runningMgr none rfl

/-! ### Helper lemmas: the poll loop -/

/-- The drain section touches only the message/image bookkeeping: the
link, the flags and the count-independent state pass through. -/
theorem drainLines_preserves :
    ∀ (lines : List String) (st : PollState),
      (drainLines st lines).link = st.link ∧
      (drainLines st lines).stopEvent = st.stopEvent ∧
      (drainLines st lines).skipCurrent = st.skipCurrent := by
  intro lines
  induction lines with
  | nil => intro st; exact ⟨rfl, rfl, rfl⟩
  | cons line rest ih =>
    intro st
    simp only [drainLines]
    split
    · exact ih st
    · split
      · exact ih st
      · split <;> simpa using ih _

/-- When a continue is returned, the gateway hands the link back
untouched. -/
theorem askUser_continue_link (resolver : Option Resolver)
    (link : LinkMetadata) (kind : String) :
    (askUserContinueOrSkip resolver link kind).1 = true →
    (askUserContinueOrSkip resolver link kind).2 = link := by
  unfold askUserContinueOrSkip
  rcases resolver with - | f
  · simp
  · cases hr : f link kind <;> simp [hr]

/-- If some tick carries a stop request while no tick carries a skip
request or a timeout, the poll loop ends by the stop/skip check, with
the stop flag up, the skip flag still down and the link untouched. -/
theorem pollLoop_stops (resolver : Option Resolver) (url : String) :
    ∀ (ts : List Tick) (st : PollState),
      ts.all (fun t => !t.skipReq && !t.timedOut) = true →
      st.skipCurrent = false →
      ts.any (fun t => t.stopReq) = true →
      ∃ st', pollLoop resolver url st ts = .termStopSkip st' ∧
        st'.stopEvent = true ∧ st'.skipCurrent = false ∧
        st'.link = st.link := by
  intro ts
  induction ts with
  | nil => intro st _ _ hany; simp at hany
  | cons t rest ih =>
    intro st hall hskip hany
    simp only [List.all_cons, Bool.and_eq_true, Bool.not_eq_true'] at hall
    rcases hall with ⟨⟨htskip, httime⟩, hrest⟩
    have hrest2 : rest.all (fun t => !t.skipReq && !t.timedOut) = true := by
      simpa [List.all_eq_true] using hrest
    simp only [pollLoop, hskip, htskip, Bool.or_false]
    by_cases hstop : (st.stopEvent || t.stopReq) = true
    · rw [if_pos (by simpa using hstop)]
      exact ⟨_, rfl, by simpa using hstop, rfl, rfl⟩
    · have hx : (st.stopEvent || t.stopReq) = false := by
        simpa using hstop
      rcases Bool.or_eq_false_iff.mp hx with ⟨hse, htr⟩
      rw [if_neg (by simp [hx]), if_neg (by simp [httime])]
      have hany2 : rest.any (fun t => t.stopReq) = true := by
        simpa [htr] using hany
      have hpres := drainLines_preserves t.lines
        { st with
          stopEvent := st.stopEvent || t.stopReq
          skipCurrent := false }
      rcases ih _ hrest2 hpres.2.2 hany2 with ⟨st', heq, h1, h2, h3⟩
      exact ⟨st', heq, h1, h2, by rw [h3, hpres.1]⟩

/-- If the poll loop exits naturally and no tick carried a stop or a
skip request, both flags are still down at exit. -/
theorem pollLoop_exited_flags (resolver : Option Resolver) (url : String) :
    ∀ (ts : List Tick) (st st' : PollState),
      ts.all (fun t => !t.stopReq && !t.skipReq) = true →
      st.stopEvent = false → st.skipCurrent = false →
      pollLoop resolver url st ts = .exited st' →
      st'.stopEvent = false ∧ st'.skipCurrent = false := by
  intro ts
  induction ts with
  | nil =>
    intro st st' _ hstop hskip heq
    simp only [pollLoop, PollOutcome.exited.injEq] at heq
    subst heq
    exact ⟨hstop, hskip⟩
  | cons t rest ih =>
    intro st st' hall hstop hskip heq
    simp only [List.all_cons, Bool.and_eq_true, Bool.not_eq_true'] at hall
    rcases hall with ⟨⟨htstop, htskip⟩, hrest⟩
    have hrest2 : rest.all (fun t => !t.stopReq && !t.skipReq) = true := by
      simpa [List.all_eq_true] using hrest
    simp only [pollLoop, hstop, htstop, hskip, htskip, Bool.or_false,
      Bool.false_or] at heq
    rw [if_neg (by simp)] at heq
    by_cases htime : t.timedOut = true
    · rw [if_pos htime] at heq
      split at heq
      · refine ih _ st' hrest2 ?_ ?_ heq
        · exact (drainLines_preserves t.lines _).2.1
        · exact (drainLines_preserves t.lines _).2.2
      · simp at heq
    · rw [if_neg htime] at heq
      refine ih _ st' hrest2 ?_ ?_ heq
      · exact (drainLines_preserves t.lines _).2.1
      · exact (drainLines_preserves t.lines _).2.2

/-- A single-link download whose poll environment carries a stop
request (and no skip request or timeout) fails with the subprocess
terminated, the stop flag up, the skip flag down and the link record
untouched. -/
theorem downloadSingleLink_stop_facts (cfg : DMConfig)
    (resolver : Option Resolver) (env : ItemEnv) (link : LinkMetadata)
    (progress : DownloadProgress)
    (h1 : env.ticks.all (fun t => !t.skipReq && !t.timedOut) = true)
    (h2 : env.ticks.any (fun t => t.stopReq) = true) :
    (downloadSingleLink cfg resolver false false env link
      progress).success = false ∧
    (downloadSingleLink cfg resolver false false env link
      progress).terminated = true ∧
    (downloadSingleLink cfg resolver false false env link
      progress).stopEvent = true ∧
    (downloadSingleLink cfg resolver false false env link
      progress).skipCurrent = false ∧
    (downloadSingleLink cfg resolver false false env link
      progress).link = link := by
  rcases pollLoop_stops resolver link.url env.ticks
    { stopEvent := false, skipCurrent := false, link := link,
      progress := progress, imagesCount := 0, lastMsg := none }
    h1 rfl h2 with ⟨st', heq, hse, hsk, hlink⟩
  simp only [downloadSingleLink, heq]
  simp [hse, hsk, hlink]

/-- With the stop event already set, the worker processes no item: the
batch links come back untouched and the progress is unchanged. -/
theorem workerGo_stopped (cfg : DMConfig) (resolver : Option Resolver)
    (total i : Nat) (skipC : Bool) (progress : DownloadProgress) :
    ∀ batch, (workerGo cfg resolver total i true skipC progress
        batch).links = batch.map Prod.fst ∧
      (workerGo cfg resolver total i true skipC progress
        batch).progress = progress := by
  intro batch
  cases batch with
  | nil => simp [workerGo]
  | cons p rest =>
    rcases p with ⟨link, env⟩
    simp [workerGo]

/-- `_notify_progress` swallows every callback exception. -/
theorem notifyProgressResult_ok (cbs : List ProgressCallback)
    (p : DownloadProgress) :
    notifyProgressResult cbs p = .ok () := by
  unfold notifyProgressResult
  induction cbs with
  | nil => rfl
  | cons c rest ih =>
    simp only [List.foldlM_cons]
    cases c p <;> simpa using ih

/-- C1 (amended): raising the stop signal while an item is in flight
terminates the active subprocess and fails the item; the worker then
routes the in-flight link from `downloading` to `error` — not to
`skipped`, which the code reserves for the skip-current flag — and
processes no further item of the batch; the run status is `idle` after
the worker's final block, and `stop_downloads` returns normally (no
exception reaches its caller). -/
theorem C1_stop_mid_item_amended :
    (∀ (cfg : DMConfig) (resolver : Option Resolver) (env : ItemEnv)
       (link : LinkMetadata) (progress : DownloadProgress),
      env.ticks.all (fun t => !t.skipReq && !t.timedOut) = true →
      env.ticks.any (fun t => t.stopReq) = true →
      (downloadSingleLink cfg resolver false false env link
        progress).terminated = true ∧
      (downloadSingleLink cfg resolver false false env link
        progress).success = false) ∧
    (∀ (cfg : DMConfig) (resolver : Option Resolver) (total i : Nat)
       (progress : DownloadProgress) (link : LinkMetadata) (env : ItemEnv)
       (rest : List (LinkMetadata × ItemEnv)),
      env.ticks.all (fun t => !t.skipReq && !t.timedOut) = true →
      env.ticks.any (fun t => t.stopReq) = true →
      env.skipReqAfterItem = false →
      env.stopReqAtTop = false → env.stopReqAfterPause = false →
      (workerGo cfg resolver total i false false progress
          ((link, env) :: rest)).links =
        { link with status := .ERROR } :: rest.map Prod.fst) ∧
    (∀ (cfg : DMConfig) (resolver : Option Resolver) (s0 s1 : Bool)
       (progress : DownloadProgress)
       (batch : List (LinkMetadata × ItemEnv)),
      (downloadWorker cfg resolver s0 s1 progress
        batch).progress.status = .IDLE ∧
      (downloadWorker cfg resolver s0 s1 progress
        batch).progress.current_link = none) ∧
    (∀ (cbs : List ProgressCallback) (st : MgrState),
      stopDownloads cbs st =
        .ok { st with
          progress := { st.progress with status := .STOPPED }
          stopEvent := true }) := by
  refine ⟨?_, ?_, ?_, ?_⟩
  · intro cfg resolver env link progress h1 h2
    have hf := downloadSingleLink_stop_facts cfg resolver env link
      progress h1 h2
    exact ⟨hf.2.1, hf.1⟩
  · intro cfg resolver total i progress link env rest h1 h2 h3 h4 h5
    have hf := downloadSingleLink_stop_facts cfg resolver env
      { link with status := .DOWNLOADING }
      { progress with
        current_link := some link
        current_operation := "Downloading " ++ link.url
        current_progress := 0 } h1 h2
    have hstopped := workerGo_stopped cfg resolver total (i + 1) false
    simp only [workerGo, h4, h5, Bool.or_false, Bool.false_or]
    rw [if_neg (by simp)]
    simp only [hf.1, hf.2.2.1, hf.2.2.2.1, hf.2.2.2.2, h3,
      Bool.or_false, Bool.false_or, if_false]
    rw [(hstopped _ _).1]
    simp
  · intro cfg resolver s0 s1 progress batch
    exact ⟨rfl, rfl⟩
  · intro cbs st
    simp [stopDownloads, notifyProgressResult_ok]

/-- Orchestrator configuration with the source defaults. -/
def c1Cfg : DMConfig := {}

/-- Item environment whose first poll tick carries a stop request. -/
def c1EnvStop : ItemEnv := { ticks := [{ stopReq := true }] }

/-- Item environment of an immediately and cleanly exiting process. -/
def c1EnvOk : ItemEnv := {}

/-- First batch link of the C1 concrete run. -/
def c1Link1 : LinkMetadata := { id := "1", url := "u1", status := .TO_DOWNLOAD }

/-- Second batch link of the C1 concrete run. -/
def c1Link2 : LinkMetadata := { id := "2", url := "u2", status := .TO_DOWNLOAD }

/-- The full worker run of the C1 concrete scenario: two links, stop
requested at the first tick of the first item. -/
def c1Run : WorkerResult :=
  downloadWorker c1Cfg none false false (freshProgress 2)
    [(c1Link1, c1EnvStop), (c1Link2, c1EnvOk)]

/-- C1 counterexample: on a global stop mid-item the in-flight link's
status becomes `error`, not `skipped` as the claim states (the second
link is untouched, the run does end `idle` with the stop event up). -/
theorem C1_counterexample :
    c1Run.links.map (fun l => l.status) =
      [LinkStatus.ERROR, LinkStatus.TO_DOWNLOAD] ∧
    LinkStatus.ERROR ≠ LinkStatus.SKIPPED ∧
    c1Run.progress.status = .IDLE ∧
    c1Run.stopEvent = true := by
  exact ⟨by decide, by decide, by decide, by decide⟩

/-- C1 witness: the amended worker clause at the concrete stop
scenario. -/
theorem C1_stop_mid_item_amended_witness :
    (workerGo c1Cfg none 2 0 false false (freshProgress 2)
        [(c1Link1, c1EnvStop), (c1Link2, c1EnvOk)]).links =
      [{ c1Link1 with status := .ERROR }, c1Link2] := by
  have := C1_stop_mid_item_amended.2.1 c1Cfg none 2 0 (freshProgress 2)
    c1Link1 c1EnvStop [(c1Link2, c1EnvOk)] (by decide) (by decide)
    rfl rfl rfl
  simpa using this

/-- The exact outcome of a single-link download whose process exited
naturally, whose post-exit image count breaches the ceiling and whose
gateway resolution is "skip": a failure carrying `to_skip_limit` and
the tagged synthetic error, built before the exit code is looked at. -/
theorem downloadSingleLink_image_skip (cfg : DMConfig) (rf : Resolver)
    (env : ItemEnv) (link : LinkMetadata) (progress : DownloadProgress)
    (stP : PollState)
    (hres : ∀ l, rf l "image_count" = .ret false)
    (hpoll : pollLoop (some rf) link.url
      { stopEvent := false, skipCurrent := false, link := link,
        progress := progress, imagesCount := 0, lastMsg := none }
      env.ticks = .exited stP)
    (himg : max stP.imagesCount
      (parseGalleryDlOutput (String.join env.finalLines)).1 >
        cfg.max_images_per_link) :
    downloadSingleLink cfg (some rf) false false env link progress =
      { success := false, terminated := false, stopEvent := stP.stopEvent,
        skipCurrent := stP.skipCurrent,
        link := { stP.link with
          images_count := max stP.imagesCount
            (parseGalleryDlOutput (String.join env.finalLines)).1
          file_size_mb := (parseGalleryDlOutput (String.join env.finalLines)).2
          error_message := "error(image_count)"
          status := .TO_SKIP_LIMIT },
        progress := { stP.progress with
          current_operation := "Skipped (image_count): " ++ stP.link.url } } := by
  simp only [downloadSingleLink, hpoll]
  rw [if_pos himg]
  simp [askUserContinueOrSkip, hres]

/-- C3: an item whose post-exit image count exceeds the ceiling and
whose Decision Gateway resolution is "skip" ends as a failure with
status `to_skip_limit` and error message `error(image_count)` (which
contains the tag `image_count`), without the exit code being evaluated
(the outcome is the same for every exit code); the worker preserves the
`to_skip_limit` status and proceeds to the next item of the batch; in
the concrete scenario — ceiling 10, a stream implying 11 save events, a
resolver answering `false` — the first link ends `to_skip_limit` with
the tagged error and the second link is still downloaded. -/
theorem C3_image_limit_skip :
    (∀ (cfg : DMConfig) (rf : Resolver) (env : ItemEnv)
       (link : LinkMetadata) (progress : DownloadProgress)
       (stP : PollState),
      (∀ l, rf l "image_count" = .ret false) →
      pollLoop (some rf) link.url
        { stopEvent := false, skipCurrent := false, link := link,
          progress := progress, imagesCount := 0, lastMsg := none }
        env.ticks = .exited stP →
      max stP.imagesCount
        (parseGalleryDlOutput (String.join env.finalLines)).1 >
          cfg.max_images_per_link →
      (downloadSingleLink cfg (some rf) false false env link
        progress).success = false ∧
      (downloadSingleLink cfg (some rf) false false env link
        progress).link.status = .TO_SKIP_LIMIT ∧
      (downloadSingleLink cfg (some rf) false false env link
        progress).link.error_message = "error(image_count)" ∧
      strContainsSub "image_count"
        (downloadSingleLink cfg (some rf) false false env link
          progress).link.error_message = true ∧
      (∀ e : Int, downloadSingleLink cfg (some rf) false false
          { env with exitCode := e } link progress =
        downloadSingleLink cfg (some rf) false false env link progress)) ∧
    (∀ (cfg : DMConfig) (rf : Resolver) (total i : Nat)
       (progress0 : DownloadProgress) (link : LinkMetadata)
       (env : ItemEnv) (rest : List (LinkMetadata × ItemEnv))
       (stP : PollState),
      (∀ l, rf l "image_count" = .ret false) →
      env.ticks.all (fun t => !t.stopReq && !t.skipReq) = true →
      env.skipReqAfterItem = false →
      env.stopReqAtTop = false → env.stopReqAfterPause = false →
      pollLoop (some rf) link.url
        { stopEvent := false, skipCurrent := false,
          link := { link with status := .DOWNLOADING },
          progress := { progress0 with
            current_link := some link
            current_operation := "Downloading " ++ link.url
            current_progress := 0 },
          imagesCount := 0, lastMsg := none } env.ticks = .exited stP →
      max stP.imagesCount
        (parseGalleryDlOutput (String.join env.finalLines)).1 >
          cfg.max_images_per_link →
      ∃ P : DownloadProgress,
        (workerGo cfg (some rf) total i false false progress0
            ((link, env) :: rest)).links =
          { stP.link with
            images_count := max stP.imagesCount
              (parseGalleryDlOutput (String.join env.finalLines)).1
            file_size_mb :=
              (parseGalleryDlOutput (String.join env.finalLines)).2
            error_message := "error(image_count)"
            status := .TO_SKIP_LIMIT } ::
            (workerGo cfg (some rf) total (i + 1) false false P
              rest).links) := by
  constructor
  · intro cfg rf env link progress stP hres hpoll himg
    have hdsl := downloadSingleLink_image_skip cfg rf env link progress
      stP hres hpoll himg
    refine ⟨?_, ?_, ?_, ?_, ?_⟩
    · rw [hdsl]
    · rw [hdsl]
    · rw [hdsl]
    · rw [hdsl]
      show strContainsSub "image_count" "error(image_count)" = true
      decide
    · intro e
      rw [downloadSingleLink_image_skip cfg rf { env with exitCode := e }
        link progress stP hres hpoll himg, hdsl]
  · intro cfg rf total i progress0 link env rest stP hres hall h3 h4 h5
      hpoll himg
    have hflags := pollLoop_exited_flags (some rf) link.url env.ticks _
      stP hall rfl rfl hpoll
    have hdsl := downloadSingleLink_image_skip cfg rf env
      { link with status := .DOWNLOADING }
      { progress0 with
        current_link := some link
        current_operation := "Downloading " ++ link.url
        current_progress := 0 } stP hres hpoll himg
    refine ⟨{ { stP.progress with
        current_operation := "Skipped (image_count): " ++ stP.link.url
        failed_links := stP.progress.failed_links + 1 } with
      current_progress := ((i + 1 : Nat) : Rat) / (total : Rat) }, ?_⟩
    simp only [workerGo, h4, h5, Bool.or_false, Bool.false_or]
    rw [if_neg (by simp)]
    simp only [hdsl, hflags.1, hflags.2, h3, Bool.or_false, Bool.false_or,
      if_false]
    simp

/-- Configuration with an image ceiling of 10, for the C3 witness. -/
def c3Cfg : DMConfig := { max_images_per_link := 10 }

/-- A resolver answering "skip" to every gateway question. -/
def resolverNo : Resolver := fun _ _ => .ret false

/-- Eleven distinct output lines that each count as a save event. -/
def c3Lines : List String :=
  (List.range 11).map (fun i => "download saving " ++ toString i)

/-- Item environment streaming the eleven save events, clean exit. -/
def c3EnvImgs : ItemEnv := { ticks := [{ lines := c3Lines }] }

/-- The poll state the C3 witness run exits with. -/
def c3StP : PollState :=
  { stopEvent := false, skipCurrent := false, link := c1Link1,
    progress := { freshProgress 2 with
      current_operation := "download saving 10"
      images_downloaded := 11 },
    imagesCount := 11, lastMsg := some "download saving 10" }

/-- C3 witness: the single-link clause at the concrete scenario —
ceiling 10, 11 streamed save events, resolver answering `false`. -/
theorem C3_image_limit_skip_witness :
    (downloadSingleLink c3Cfg (some resolverNo) false false c3EnvImgs
      c1Link1 (freshProgress 2)).link.status = .TO_SKIP_LIMIT ∧
    (downloadSingleLink c3Cfg (some resolverNo) false false c3EnvImgs
      c1Link1 (freshProgress 2)).link.error_message =
        "error(image_count)" := by
  have h := C3_image_limit_skip.1 c3Cfg resolverNo c3EnvImgs c1Link1
    (freshProgress 2) c3StP (fun l => rfl) (by decide) (by decide)
  exact ⟨h.2.1, h.2.2.1⟩

end DLG
